import Mathlib

set_option maxHeartbeats 1000000

namespace GoBack

/-!
Shallow embedding of the game catalog repository: the Game entity and its
validation rules, the Validator accumulator, the GameModel data access
operations over a store model, and the Filters and Metadata pagination
helpers. The store is modelled as a list of rows together with the server
side generators for ids, version tokens and the created_at clock. The source
schema carries one redacted numeric column that no claim mentions; it is
omitted from the model.
-/

/-- Sentinel error kinds of the data layer from internal/data/models.go, plus
an opaque store error standing for constraint violations passed through
uninterpreted. -/
inductive Err where
  | recordNotFound
  | editConflict
  | storeError
deriving Repr, DecidableEq

/-- Model of a Go slice: nil or a list of elements. The genres field and the
page returned by GetAll distinguish nil from empty. -/
abbrev GoSlice (α : Type) := Option (List α)

/-- Elements of a Go slice; a nil slice has none. -/
def goList {α : Type} : GoSlice α → List α
  | none => []
  | some l => l

/-- Length of a Go slice; a nil slice has length zero. -/
def goLen {α : Type} (s : GoSlice α) : Nat := (goList s).length

/-- Game entity from the data package: id int64, created_at timestamp, title,
year int32, genres text slice and the version concurrency token. Timestamps
and version tokens are opaque values modelled as naturals. -/
structure Game where
  id : Int
  createdAt : Nat
  title : String
  year : Int
  genres : GoSlice String
  version : Nat
deriving Repr, DecidableEq

/-- Modelled from the spec: the validator package is not under src. A
Validator accumulates per field error messages; the Go map from field to
message is modelled as an association list with unique keys. -/
structure Validator where
  errors : List (String × String)
deriving Repr, DecidableEq

/-- Modelled from the spec: a fresh Validator with no errors recorded. -/
def Validator.new : Validator := ⟨[]⟩

/-- Modelled from the spec: addError records field to message unless that
field already has a message, so the first failure per field wins. -/
def Validator.addError (v : Validator) (field message : String) : Validator :=
  if (v.errors.lookup field).isSome then v else ⟨v.errors ++ [(field, message)]⟩

/-- Modelled from the spec: Check records the error exactly when ok is
false. -/
def Validator.Check (v : Validator) (ok : Bool) (field message : String) : Validator :=
  if ok then v else v.addError field message

/-- Modelled from the spec: Valid is true when no errors are recorded. -/
def Validator.Valid (v : Validator) : Bool := v.errors.isEmpty

/-- One Check invocation: the boolean, the field and the message. -/
structure CheckCall where
  ok : Bool
  field : String
  message : String
deriving Repr, DecidableEq

/-- Runs a sequence of Check calls against a Validator, left to right. -/
def runChecks (v : Validator) (calls : List CheckCall) : Validator :=
  calls.foldl (fun w c => w.Check c.ok c.field c.message) v

/-- Message of the first failing check recorded against a field in a call
sequence, if any. -/
def firstFailMessage (calls : List CheckCall) (field : String) : Option String :=
  ((calls.filter (fun c => !c.ok && c.field == field)).head?).map (fun c => c.message)

/-- Modelled from the spec: the validator package helper testing that all
values are distinct via a set membership scan. -/
def Unique (values : List String) : Bool :=
  match values with
  | [] => true
  | x :: xs => !(xs.contains x) && Unique xs

/-- ValidateGame from the data package: nine independent checks, all
evaluated, recorded against the title, year and genres fields. The current
calendar year read from the clock at validation time is passed explicitly. -/
def ValidateGame (v : Validator) (game : Game) (currentYear : Int) : Validator :=
  ((((((((v.Check (game.title != "") "title" "must be provided").Check
    (decide (game.title.utf8ByteSize ≤ 500)) "title" "must not be more than 500 bytes long").Check
    (game.year != 0) "year" "must be provided").Check
    (decide (1888 ≤ game.year)) "year" "must be greater than 1888").Check
    (decide (game.year ≤ currentYear)) "year" "must not be in the future").Check
    game.genres.isSome "genres" "must be provided").Check
    (decide (1 ≤ goLen game.genres)) "genres" "must contain at least 1 genre").Check
    (decide (goLen game.genres ≤ 5)) "genres" "must not contain more than 5 genres").Check
    (Unique (goList game.genres)) "genres" "must not contain duplicate values"

/-- The nine checks of ValidateGame as a call sequence, in source order. -/
def gameChecks (game : Game) (currentYear : Int) : List CheckCall :=
  [⟨game.title != "", "title", "must be provided"⟩,
   ⟨decide (game.title.utf8ByteSize ≤ 500), "title", "must not be more than 500 bytes long"⟩,
   ⟨game.year != 0, "year", "must be provided"⟩,
   ⟨decide (1888 ≤ game.year), "year", "must be greater than 1888"⟩,
   ⟨decide (game.year ≤ currentYear), "year", "must not be in the future"⟩,
   ⟨game.genres.isSome, "genres", "must be provided"⟩,
   ⟨decide (1 ≤ goLen game.genres), "genres", "must contain at least 1 genre"⟩,
   ⟨decide (goLen game.genres ≤ 5), "genres", "must not contain more than 5 genres"⟩,
   ⟨Unique (goList game.genres), "genres", "must not contain duplicate values"⟩]

/-- Metadata pagination summary exposed by list queries. -/
structure Metadata where
  currentPage : Nat
  pageSize : Nat
  firstPage : Nat
  lastPage : Nat
  totalRecords : Nat
deriving Repr, DecidableEq

/-- Zero value Metadata, returned when no records match. -/
def Metadata.zero : Metadata := ⟨0, 0, 0, 0, 0⟩

/-- Ceiling division on naturals, the model of the float ceiling applied to
the quotient of two positive counts. -/
def ceilDiv (a b : Nat) : Nat := (a + b - 1) / b

/-- Modelled from the spec: calculateMetadata is not under src. Zero total
records give the zero value Metadata; otherwise the current page, the page
size, first page one, the ceiling divided last page and the total count. -/
def calculateMetadata (totalRecords page pageSize : Nat) : Metadata :=
  if totalRecords = 0 then Metadata.zero
  else ⟨page, pageSize, 1, ceilDiv totalRecords pageSize, totalRecords⟩

/-- Filters of the list endpoint: page, page size, requested sort field and
the safelist of permitted sort fields. The Go field named Sort is rendered
here as sortField, Sort being reserved. -/
structure Filters where
  Page : Nat
  PageSize : Nat
  sortField : String
  SortSafelist : List String
deriving Repr, DecidableEq

/-- Modelled from the spec: sortColumn strips the leading descending marker
from the requested sort field and validates membership in the safelist; none
models the rejection of an unsafe sort field. -/
def Filters.sortColumn (f : Filters) : Option String :=
  if f.SortSafelist.contains f.sortField then
    some (if f.sortField.startsWith "-" then f.sortField.drop 1 else f.sortField)
  else none

/-- Modelled from the spec: DESC when the descending marker was present,
ASC otherwise. -/
def Filters.sortDirection (f : Filters) : String :=
  if f.sortField.startsWith "-" then "DESC" else "ASC"

/-- Modelled from the spec: the query window size is the page size. -/
def Filters.limit (f : Filters) : Nat := f.PageSize

/-- Modelled from the spec: the query window starts after the earlier
pages. -/
def Filters.offset (f : Filters) : Nat := (f.Page - 1) * f.PageSize

/-- Store model: the games table rows plus the server side id sequence,
version token generator, created_at clock, and the calendar year used by the
year check constraint. -/
structure DB where
  rows : List Game
  nextId : Int
  nextVersion : Nat
  now : Nat
  currentYear : Int
deriving Repr, DecidableEq

/-- Well formed store: ids are distinct, at least one and below the id
sequence, and every stored version token is older than the next generated
one. -/
def DB.WF (db : DB) : Prop :=
  (db.rows.map (fun g => g.id)).Nodup ∧
  (∀ g ∈ db.rows, 1 ≤ g.id ∧ g.id < db.nextId ∧ g.version < db.nextVersion) ∧
  1 ≤ db.nextId

instance (db : DB) : Decidable db.WF := by
  unfold DB.WF
  exact inferInstance

/-- Check constraints from the migrations as they apply to a written row: the
year range constraint, NOT NULL on genres, and the genre array length
constraint, which the store skips on an empty array because its length is
NULL there. -/
def checkConstraintsOk (db : DB) (g : Game) : Bool :=
  decide (1888 ≤ g.year) && decide (g.year ≤ db.currentYear) &&
  g.genres.isSome &&
  (goLen g.genres == 0 || (decide (1 ≤ goLen g.genres) && decide (goLen g.genres ≤ 5)))

/-- The row an insertion writes: the caller supplied title, year and genres
together with the server assigned id, created_at and version. -/
def assignedGame (db : DB) (game : Game) : Game :=
  { game with id := db.nextId, createdAt := db.now, version := db.nextVersion }

/-- The store after an insertion: the new row appended and every server side
generator advanced. -/
def insertedDB (db : DB) (game : Game) : DB :=
  { db with rows := db.rows ++ [assignedGame db game], nextId := db.nextId + 1,
            nextVersion := db.nextVersion + 1, now := db.now + 1 }

/-- GameModel.Insert: writes title, year and genres; the server assigns id,
created_at and version, which the RETURNING clause scans back into the caller
struct. A constraint violation surfaces as a store error. -/
def GameModel.Insert (db : DB) (game : Game) : Except Err (DB × Game) :=
  if checkConstraintsOk db game then
    Except.ok (insertedDB db game, assignedGame db game)
  else Except.error Err.storeError

/-- GameModel.Get: an id below one fails NotFound before any store call;
otherwise the row is fetched by id, with no matching row mapped to NotFound.
The second component counts store queries issued by the call. -/
def GameModel.Get (db : DB) (id : Int) : Except Err Game × Nat :=
  if id < 1 then (Except.error Err.recordNotFound, 0)
  else
    match db.rows.find? (fun g => g.id == id) with
    | none => (Except.error Err.recordNotFound, 1)
    | some g => (Except.ok g, 1)

/-- The matched row branch of Update. The store enforces the schema check
constraints on the written payload exactly as on insert: a violation aborts
the statement with a store error, nothing written and nothing scanned;
otherwise the row takes the new title, year and genres and a freshly
generated version token, scanned back into the caller struct. -/
def GameModel.updateMatched (db : DB) (game : Game) : DB × Game × Option Err :=
  if checkConstraintsOk db game then
    ({ db with
        rows := db.rows.map (fun g =>
          if g.id == game.id && g.version == game.version then
            { g with title := game.title, year := game.year, genres := game.genres,
                     version := db.nextVersion }
          else g),
        nextVersion := db.nextVersion + 1 },
     { game with version := db.nextVersion }, none)
  else (db, game, some Err.storeError)

/-- GameModel.Update: compare and swap on id and version. Zero matched rows
give EditConflict with nothing written and nothing scanned; on a matched row
the write happens under the schema check constraints. The middle component is
the caller struct after the call. -/
def GameModel.Update (db : DB) (game : Game) : DB × Game × Option Err :=
  match db.rows.find? (fun g => g.id == game.id && g.version == game.version) with
  | none => (db, game, some Err.editConflict)
  | some _ => GameModel.updateMatched db game

/-- GameModel.Delete: an id below one fails NotFound before any store call;
otherwise rows with the id are deleted, and zero affected rows give NotFound.
The last component counts store calls issued. -/
def GameModel.Delete (db : DB) (id : Int) : DB × Option Err × Nat :=
  if id < 1 then (db, some Err.recordNotFound, 0)
  else
    if (db.rows.filter (fun g => g.id != id)).length == db.rows.length then
      (db, some Err.recordNotFound, 1)
    else ({ db with rows := db.rows.filter (fun g => g.id != id) }, none, 1)

/-- Lexemes of the simple text search configuration: lower cased words. -/
def plainWords (s : String) : List String :=
  (s.toLower.splitOn " ").filter (fun w => w != "")

/-- Plain text query match over title lexemes; an empty query matches no
row. -/
def titleMatches (query title : String) : Bool :=
  !(plainWords query).isEmpty &&
  (plainWords query).all (fun w => (plainWords title).contains w)

/-- Row filter of GetAll: full text title match or empty title argument, and
genre superset or empty genre argument. -/
def rowMatches (qtitle : String) (qgenres : List String) (g : Game) : Bool :=
  (titleMatches qtitle g.title || qtitle == "") &&
  (qgenres.all (fun x => (goList g.genres).contains x) || qgenres.isEmpty)

/-- Comparison of two rows under one sort column name. -/
def colCmp (col : String) (a b : Game) : Ordering :=
  if col = "title" then compare a.title b.title
  else if col = "year" then compare a.year b.year
  else if col = "created_at" then compare a.createdAt b.createdAt
  else if col = "version" then compare a.version b.version
  else compare a.id b.id

/-- Row order of GetAll: the chosen column in the chosen direction with
ascending id as the tie breaker. -/
def gameLe (col : String) (desc : Bool) (a b : Game) : Bool :=
  match (if desc then colCmp col b a else colCmp col a b) with
  | Ordering.lt => true
  | Ordering.gt => false
  | Ordering.eq => decide (a.id ≤ b.id)

/-- Row order of GetAll as a decidable relation. -/
def gameRel (col : String) (desc : Bool) : Game → Game → Prop :=
  fun a b => gameLe col desc a b = true

instance (col : String) (desc : Bool) : DecidableRel (gameRel col desc) :=
  fun a b => inferInstanceAs (Decidable (gameLe col desc a b = true))

/-- ORDER BY of GetAll over a row set. -/
def sortGames (col : String) (desc : Bool) (rows : List Game) : List Game :=
  rows.insertionSort (gameRel col desc)

/-- GameModel.GetAll: filters rows by title and genres, orders by the
safelisted column and direction with id tie break, windows by limit and
offset, and reads the windowed total count off the returned rows, so an empty
page reports zero records. The outer Option models the rejection of an unsafe
sort field; the page itself starts as an empty non nil slice and grows by
appends. -/
def GameModel.GetAll (db : DB) (title : String) (genres : List String)
    (f : Filters) : Option (GoSlice Game × Metadata) :=
  match f.sortColumn with
  | none => none
  | some col =>
    let matched := db.rows.filter (fun g => rowMatches title genres g)
    let sorted := sortGames col (f.sortDirection == "DESC") matched
    let page := (sorted.drop f.offset).take f.limit
    let totalRecords := if page.isEmpty then 0 else matched.length
    some (some page, calculateMetadata totalRecords f.Page f.PageSize)

/-! Concrete sample data used by the witnesses below. -/

/-- Sample game failing every validation group. -/
def badGame : Game := ⟨0, 0, "", 0, none, 0⟩

/-- Sample stored row with id one. -/
def rowA : Game := ⟨1, 0, "alpha", 2000, some ["action"], 1⟩

/-- Sample stored row with id two. -/
def rowB : Game := ⟨2, 1, "beta", 2001, some ["rpg"], 2⟩

/-- Sample stored row with id three. -/
def rowC : Game := ⟨3, 2, "gamma", 2002, some ["sim"], 3⟩

/-- Sample store holding one row. -/
def dbOne : DB := ⟨[rowA], 2, 5, 7, 2025⟩

/-- Sample store holding three rows. -/
def dbThree : DB := ⟨[rowA, rowB, rowC], 4, 5, 7, 2025⟩

/-- Sample valid game for insertion. -/
def newGame : Game := ⟨0, 0, "delta", 2010, some ["indie"], 0⟩

/-- Second sample valid game for insertion. -/
def newGameB : Game := ⟨0, 0, "epsilon", 2011, some ["indie", "rpg"], 0⟩

/-- Sample caller struct carrying a stale version for row one. -/
def staleGame : Game := ⟨1, 0, "alpha two", 2001, some ["action"], 99⟩

/-- Sample caller struct carrying the current version of row one. -/
def currGame : Game := ⟨1, 0, "alpha two", 2001, some ["action"], 1⟩

/-- Sample caller struct carrying the current version of row one but a year
violating the schema range constraint. -/
def badUpdGame : Game := ⟨1, 0, "alpha two", 5000, some ["action"], 1⟩

/-! Helper lemmas about the Validator. -/

theorem lookup_append {α β : Type} [BEq α] (l₁ l₂ : List (α × β)) (a : α) :
    (l₁ ++ l₂).lookup a = ((l₁.lookup a).or (l₂.lookup a)) := by
  induction l₁ with
  | nil => simp [List.lookup]
  | cons p l ih =>
    cases p with
    | mk k b =>
      by_cases h : (a == k) = true
      · simp [List.lookup, h, Option.or]
      · simp only [Bool.not_eq_true] at h
        simp [List.lookup, h, ih]

theorem check_errors_nil (v : Validator) (ok : Bool) (field message : String) :
    (v.Check ok field message).errors = [] ↔ v.errors = [] ∧ ok = true := by
  cases ok with
  | true =>
    unfold Validator.Check
    simp
  | false =>
    unfold Validator.Check
    simp only [Bool.false_eq_true, if_false, and_false, iff_false]
    unfold Validator.addError
    by_cases h : (v.errors.lookup field).isSome = true
    · rw [if_pos h]
      intro hnil
      rw [hnil] at h
      simp [List.lookup] at h
    · rw [if_neg h]
      simp

theorem lookup_single {α β : Type} [BEq α] [LawfulBEq α] (a k : α) (b : β) :
    List.lookup a [(k, b)] = if (k == a) = true then some b else none := by
  by_cases h : a = k
  · subst h
    simp [List.lookup]
  · have h1 : (a == k) = false := beq_eq_false_iff_ne.mpr h
    have h2 : (k == a) = false := beq_eq_false_iff_ne.mpr (Ne.symm h)
    simp [List.lookup, h1, h2]

theorem check_lookup (v : Validator) (ok : Bool) (f field message : String) :
    ((v.Check ok field message).errors.lookup f) =
      (v.errors.lookup f).or (if !ok && (field == f) then some message else none) := by
  cases ok with
  | true =>
    unfold Validator.Check
    simp [Option.or_none]
  | false =>
    unfold Validator.Check
    simp only [Bool.false_eq_true, if_false, Bool.not_false, Bool.true_and]
    unfold Validator.addError
    by_cases h : (v.errors.lookup field).isSome = true
    · rw [if_pos h]
      by_cases hf : (field == f) = true
      · rw [if_pos hf]
        have : field = f := by exact eq_of_beq hf
        subst this
        cases hlk : v.errors.lookup field with
        | none => rw [hlk] at h; simp at h
        | some m => simp [Option.or]
      · simp only [Bool.not_eq_true] at hf
        rw [hf]
        simp [Option.or_none]
    · rw [if_neg h]
      rw [lookup_append]
      congr 1
      exact lookup_single f field message

theorem runChecks_cons (v : Validator) (c : CheckCall) (cs : List CheckCall) :
    runChecks v (c :: cs) = runChecks (v.Check c.ok c.field c.message) cs := rfl

theorem runChecks_errors_nil (cs : List CheckCall) (v : Validator) :
    (runChecks v cs).errors = [] ↔ v.errors = [] ∧ ∀ c ∈ cs, c.ok = true := by
  induction cs generalizing v with
  | nil => simp [runChecks]
  | cons c cs ih =>
    rw [runChecks_cons, ih, check_errors_nil]
    simp only [List.mem_cons]
    constructor
    · rintro ⟨⟨h1, h2⟩, h3⟩
      refine ⟨h1, fun d hd => ?_⟩
      rcases hd with hd | hd
      · rw [hd]
        exact h2
      · exact h3 d hd
    · rintro ⟨h1, h2⟩
      exact ⟨⟨h1, h2 c (Or.inl rfl)⟩, fun d hd => h2 d (Or.inr hd)⟩

theorem runChecks_lookup (cs : List CheckCall) (v : Validator) (f : String) :
    (runChecks v cs).errors.lookup f =
      (v.errors.lookup f).or (firstFailMessage cs f) := by
  induction cs generalizing v with
  | nil => simp [runChecks, firstFailMessage, Option.or_none]
  | cons c cs ih =>
    rw [runChecks_cons, ih, check_lookup, Option.or_assoc]
    congr 1
    by_cases h : (!c.ok && (c.field == f)) = true
    · rw [if_pos h]
      simp only [firstFailMessage, List.filter_cons, h]
      simp [Option.or]
    · rw [if_neg h]
      simp only [firstFailMessage, List.filter_cons, h]
      simp [Option.or]

theorem firstFailMessage_cons (c : CheckCall) (cs : List CheckCall) (f : String) :
    firstFailMessage (c :: cs) f =
      if (!c.ok && (c.field == f)) = true then some c.message
      else firstFailMessage cs f := by
  unfold firstFailMessage
  rw [List.filter_cons]
  by_cases h : (!c.ok && (c.field == f)) = true
  · rw [if_pos h, if_pos h]
    simp
  · rw [if_neg h, if_neg h]

theorem firstFailMessage_isSome (cs : List CheckCall) (f : String) :
    (firstFailMessage cs f).isSome = true ↔ ∃ c ∈ cs, c.ok = false ∧ c.field = f := by
  induction cs with
  | nil => simp [firstFailMessage]
  | cons c cs ih =>
    rw [firstFailMessage_cons]
    by_cases h : (!c.ok && (c.field == f)) = true
    · rw [if_pos h]
      have hp := (Bool.and_eq_true _ _).mp h
      constructor
      · intro _
        refine ⟨c, List.mem_cons_self c cs, ?_, eq_of_beq hp.2⟩
        cases hok : c.ok
        · rfl
        · rw [hok] at hp
          simp at hp
      · intro _
        rfl
    · rw [if_neg h, ih]
      constructor
      · rintro ⟨d, hd, hdok, hdf⟩
        exact ⟨d, List.mem_cons_of_mem c hd, hdok, hdf⟩
      · rintro ⟨d, hd, hdok, hdf⟩
        rcases List.mem_cons.mp hd with hdc | hd2
        · exfalso
          apply h
          rw [hdc] at hdok hdf
          rw [hdok, hdf]
          simp
        · exact ⟨d, hd2, hdok, hdf⟩

/-- C7: calculateMetadata yields the zero Metadata for zero records, and
otherwise carries the current page, the page size, first page one, the total
count, and a last page characterised as the ceiling of the total count
divided by the page size. -/
theorem calculateMetadata_spec (totalRecords page pageSize : Nat) :
    (totalRecords = 0 → calculateMetadata totalRecords page pageSize = Metadata.zero) ∧
    (totalRecords ≠ 0 →
      (calculateMetadata totalRecords page pageSize).currentPage = page ∧
      (calculateMetadata totalRecords page pageSize).pageSize = pageSize ∧
      (calculateMetadata totalRecords page pageSize).firstPage = 1 ∧
      (calculateMetadata totalRecords page pageSize).totalRecords = totalRecords ∧
      (0 < pageSize →
        totalRecords ≤ (calculateMetadata totalRecords page pageSize).lastPage * pageSize ∧
        (calculateMetadata totalRecords page pageSize).lastPage * pageSize <
          totalRecords + pageSize)) := by
  constructor
  · intro h
    simp [calculateMetadata, h]
  · intro h
    unfold calculateMetadata
    rw [if_neg h]
    refine ⟨rfl, rfl, rfl, rfl, ?_⟩
    intro hs
    unfold ceilDiv
    have h1 := Nat.div_add_mod (totalRecords + pageSize - 1) pageSize
    have h2 := Nat.mod_lt (totalRecords + pageSize - 1) hs
    have h3 := Nat.mul_comm ((totalRecords + pageSize - 1) / pageSize) pageSize
    refine ⟨?_, ?_⟩
    · show totalRecords ≤ (totalRecords + pageSize - 1) / pageSize * pageSize
      omega
    · show (totalRecords + pageSize - 1) / pageSize * pageSize < totalRecords + pageSize
      omega

/-- C7 witness at total 25, page 2, page size 10. -/
theorem calculateMetadata_spec_witness :
    (calculateMetadata 25 2 10).currentPage = 2 ∧
    25 ≤ (calculateMetadata 25 2 10).lastPage * 10 ∧
    (calculateMetadata 25 2 10).lastPage * 10 < 25 + 10 := by
  have h := (calculateMetadata_spec 25 2 10).2 (by decide)
  exact ⟨h.1, (h.2.2.2.2 (by decide)).1, (h.2.2.2.2 (by decide)).2⟩

/-- C8: over any sequence of Check calls on a fresh Validator, each field
maps to the message of the first failing check recorded against it, and Valid
is true exactly when no failing check occurred. -/
theorem validator_first_failure_wins (cs : List CheckCall) (field : String) :
    ((runChecks Validator.new cs).errors.lookup field = firstFailMessage cs field) ∧
    ((runChecks Validator.new cs).Valid = true ↔ ∀ c ∈ cs, c.ok = true) := by
  constructor
  · rw [runChecks_lookup]
    simp [Validator.new, List.lookup, Option.or]
  · rw [Validator.Valid, List.isEmpty_iff, runChecks_errors_nil]
    simp [Validator.new]

/-! Validation of a Game: helper lemmas shared between the claims. -/

theorem validateGame_eq_runChecks (v : Validator) (game : Game) (currentYear : Int) :
    ValidateGame v game currentYear = runChecks v (gameChecks game currentYear) := rfl

theorem validateGame_valid_iff (game : Game) (currentYear : Int) :
    (ValidateGame Validator.new game currentYear).Valid = true ↔
      (game.title ≠ "" ∧ game.title.utf8ByteSize ≤ 500 ∧
       game.year ≠ 0 ∧ 1888 ≤ game.year ∧ game.year ≤ currentYear ∧
       game.genres.isSome = true ∧ 1 ≤ goLen game.genres ∧ goLen game.genres ≤ 5 ∧
       Unique (goList game.genres) = true) := by
  rw [validateGame_eq_runChecks, Validator.Valid, List.isEmpty_iff, runChecks_errors_nil]
  simp only [Validator.new, gameChecks, List.forall_mem_cons, List.not_mem_nil,
    false_implies, forall_const, and_true, true_and]
  simp [and_assoc]

theorem validateGame_lookup (game : Game) (currentYear : Int) (field : String) :
    (ValidateGame Validator.new game currentYear).errors.lookup field =
      firstFailMessage (gameChecks game currentYear) field := by
  rw [validateGame_eq_runChecks, runChecks_lookup]
  simp [Validator.new, List.lookup, Option.or]

/-- C2: ValidateGame on a fresh validator is valid exactly when the title is
nonempty and at most 500 bytes, the year is nonzero and within 1888 to the
current year, and genres is non nil with one to five distinct entries; and
every failing field group is recorded against its field, so several fields
can surface errors in one call. -/
theorem validateGame_spec (game : Game) (currentYear : Int) :
    ((ValidateGame Validator.new game currentYear).Valid = true ↔
      (game.title ≠ "" ∧ game.title.utf8ByteSize ≤ 500 ∧
       game.year ≠ 0 ∧ 1888 ≤ game.year ∧ game.year ≤ currentYear ∧
       game.genres.isSome = true ∧ 1 ≤ goLen game.genres ∧ goLen game.genres ≤ 5 ∧
       Unique (goList game.genres) = true)) ∧
    (¬ (game.title ≠ "" ∧ game.title.utf8ByteSize ≤ 500) →
      ((ValidateGame Validator.new game currentYear).errors.lookup "title").isSome = true) ∧
    (¬ (game.year ≠ 0 ∧ 1888 ≤ game.year ∧ game.year ≤ currentYear) →
      ((ValidateGame Validator.new game currentYear).errors.lookup "year").isSome = true) ∧
    (¬ (game.genres.isSome = true ∧ 1 ≤ goLen game.genres ∧ goLen game.genres ≤ 5 ∧
        Unique (goList game.genres) = true) →
      ((ValidateGame Validator.new game currentYear).errors.lookup "genres").isSome = true) := by
  refine ⟨validateGame_valid_iff game currentYear, ?_, ?_, ?_⟩
  · intro h
    rw [validateGame_lookup]
    apply (firstFailMessage_isSome _ _).mpr
    rcases not_and_or.mp h with h1 | h2
    · refine ⟨⟨game.title != "", "title", "must be provided"⟩, by simp [gameChecks], ?_, rfl⟩
      have : game.title = "" := not_ne_iff.mp h1
      simp [this]
    · refine ⟨⟨decide (game.title.utf8ByteSize ≤ 500), "title",
        "must not be more than 500 bytes long"⟩, by simp [gameChecks], ?_, rfl⟩
      exact decide_eq_false h2
  · intro h
    rw [validateGame_lookup]
    apply (firstFailMessage_isSome _ _).mpr
    rcases not_and_or.mp h with h1 | h23
    · refine ⟨⟨game.year != 0, "year", "must be provided"⟩, by simp [gameChecks], ?_, rfl⟩
      have : game.year = 0 := not_ne_iff.mp h1
      simp [this]
    · rcases not_and_or.mp h23 with h2 | h3
      · refine ⟨⟨decide (1888 ≤ game.year), "year", "must be greater than 1888"⟩,
          by simp [gameChecks], decide_eq_false h2, rfl⟩
      · refine ⟨⟨decide (game.year ≤ currentYear), "year", "must not be in the future"⟩,
          by simp [gameChecks], decide_eq_false h3, rfl⟩
  · intro h
    rw [validateGame_lookup]
    apply (firstFailMessage_isSome _ _).mpr
    rcases not_and_or.mp h with h1 | h234
    · refine ⟨⟨game.genres.isSome, "genres", "must be provided"⟩,
        by simp [gameChecks], ?_, rfl⟩
      exact Bool.not_eq_true _ |>.mp h1
    · rcases not_and_or.mp h234 with h2 | h34
      · refine ⟨⟨decide (1 ≤ goLen game.genres), "genres", "must contain at least 1 genre"⟩,
          by simp [gameChecks], decide_eq_false h2, rfl⟩
      · rcases not_and_or.mp h34 with h3 | h4
        · refine ⟨⟨decide (goLen game.genres ≤ 5), "genres",
            "must not contain more than 5 genres"⟩,
            by simp [gameChecks], decide_eq_false h3, rfl⟩
        · refine ⟨⟨Unique (goList game.genres), "genres",
            "must not contain duplicate values"⟩,
            by simp [gameChecks], ?_, rfl⟩
          exact Bool.not_eq_true _ |>.mp h4

/-- C2 witness at a game failing all three field groups and a valid one. -/
theorem validateGame_spec_witness :
    ((ValidateGame Validator.new badGame 2025).errors.lookup "title").isSome = true ∧
    ((ValidateGame Validator.new badGame 2025).errors.lookup "year").isSome = true ∧
    ((ValidateGame Validator.new badGame 2025).errors.lookup "genres").isSome = true ∧
    (ValidateGame Validator.new newGame 2025).Valid = true := by
  have h := validateGame_spec badGame 2025
  have h2 := validateGame_spec newGame 2025
  refine ⟨h.2.1 ?_, h.2.2.1 ?_, h.2.2.2 ?_, h2.1.mpr ?_⟩
  · decide
  · decide
  · decide
  · refine ⟨by decide, by decide, by decide, by decide, by decide, rfl, by decide,
      by decide, rfl⟩

/-! Helper lemmas about row lookup under distinct ids. -/

theorem eq_of_mem_same_id (a b : Game) (hab : a.id = b.id) :
    ∀ rows : List Game, (rows.map (fun x => x.id)).Nodup →
      a ∈ rows → b ∈ rows → a = b := by
  intro rows
  induction rows with
  | nil =>
    intro _ ha
    simp at ha
  | cons c l ih =>
    intro hnd ha hb
    rw [List.map_cons, List.nodup_cons] at hnd
    rcases List.mem_cons.mp ha with rfl | ha2
    · rcases List.mem_cons.mp hb with rfl | hb2
      · rfl
      · exfalso
        apply hnd.1
        rw [hab]
        exact List.mem_map_of_mem _ hb2
    · rcases List.mem_cons.mp hb with rfl | hb2
      · exfalso
        apply hnd.1
        rw [← hab]
        exact List.mem_map_of_mem _ ha2
      · exact ih hnd.2 ha2 hb2

theorem find_unique_by_id (p : Game → Bool) (g : Game)
    (hp : ∀ h, p h = true → h.id = g.id) (hpg : p g = true) :
    ∀ rows : List Game, (rows.map (fun x => x.id)).Nodup → g ∈ rows →
      rows.find? p = some g := by
  intro rows
  induction rows with
  | nil =>
    intro _ hg
    simp at hg
  | cons a l ih =>
    intro hnd hg
    rcases List.mem_cons.mp hg with rfl | hgl
    · rw [List.find?_cons_of_pos _ hpg]
    · by_cases hpa : p a = true
      · exfalso
        have haid : a.id = g.id := hp a hpa
        have hmem : g.id ∈ l.map (fun x => x.id) := List.mem_map_of_mem _ hgl
        rw [List.map_cons, List.nodup_cons] at hnd
        rw [haid] at hnd
        exact hnd.1 hmem
      · rw [List.find?_cons_of_neg _ hpa]
        rw [List.map_cons, List.nodup_cons] at hnd
        exact ih hnd.2 hgl

/-- C5: Get fails NotFound without any store call for every id at most zero,
fails NotFound with one store query when no row has the id, and returns the
stored row when one does. -/
theorem get_spec (db : DB) (id : Int) :
    (id ≤ 0 → GameModel.Get db id = (Except.error Err.recordNotFound, 0)) ∧
    (1 ≤ id → (∀ g ∈ db.rows, g.id ≠ id) →
      GameModel.Get db id = (Except.error Err.recordNotFound, 1)) ∧
    (db.WF → ∀ g ∈ db.rows, g.id = id → GameModel.Get db id = (Except.ok g, 1)) := by
  refine ⟨?_, ?_, ?_⟩
  · intro h
    unfold GameModel.Get
    rw [if_pos (by omega)]
  · intro h1 hne
    unfold GameModel.Get
    rw [if_neg (by omega)]
    have hfind : db.rows.find? (fun g => g.id == id) = none := by
      rw [List.find?_eq_none]
      intro a ha hcontra
      exact hne a ha (by exact eq_of_beq hcontra)
    rw [hfind]
  · intro hWF g hg hgid
    unfold GameModel.Get
    have hid1 : 1 ≤ id := by
      have := (hWF.2.1 g hg).1
      omega
    rw [if_neg (by omega)]
    have hfind : db.rows.find? (fun h => h.id == id) = some g := by
      apply find_unique_by_id _ _ _ _ _ hWF.1 hg
      · intro h hh
        exact (eq_of_beq hh).trans hgid.symm
      · exact beq_iff_eq.mpr hgid
    rw [hfind]

/-- C5 witness: an id of zero skips the store, a missing id and a present id
are fetched with one query each. -/
theorem get_spec_witness :
    GameModel.Get dbOne 0 = (Except.error Err.recordNotFound, 0) ∧
    GameModel.Get dbOne 2 = (Except.error Err.recordNotFound, 1) ∧
    GameModel.Get dbOne 1 = (Except.ok rowA, 1) := by
  have h0 := get_spec dbOne 0
  have h2 := get_spec dbOne 2
  have h1 := get_spec dbOne 1
  exact ⟨h0.1 (by decide), h2.2.1 (by decide) (by decide),
    h1.2.2 (by decide) rowA (by decide) (by decide)⟩

theorem update_eq_conflict (db : DB) (game : Game)
    (hfind : db.rows.find?
      (fun g => g.id == game.id && g.version == game.version) = none) :
    GameModel.Update db game = (db, game, some Err.editConflict) := by
  unfold GameModel.Update
  rw [hfind]

theorem update_eq_matched (db : DB) (game s : Game)
    (hfind : db.rows.find?
      (fun g => g.id == game.id && g.version == game.version) = some s) :
    GameModel.Update db game = GameModel.updateMatched db game := by
  unfold GameModel.Update
  rw [hfind]

theorem updateMatched_ok (db : DB) (game : Game)
    (hck : checkConstraintsOk db game = true) :
    GameModel.updateMatched db game =
      ({ db with
          rows := db.rows.map (fun g =>
            if g.id == game.id && g.version == game.version then
              { g with title := game.title, year := game.year,
                       genres := game.genres, version := db.nextVersion }
            else g),
          nextVersion := db.nextVersion + 1 },
       { game with version := db.nextVersion }, none) := by
  unfold GameModel.updateMatched
  rw [if_pos hck]

theorem updateMatched_err (db : DB) (game : Game)
    (hck : ¬ (checkConstraintsOk db game = true)) :
    GameModel.updateMatched db game = (db, game, some Err.storeError) := by
  unfold GameModel.updateMatched
  rw [if_neg hck]

/-- C1 counterexample: the stored row one of the sample store is presented
its current version together with a year outside the schema range; the
update returns the constraint violation store error, not success, so an
update with the current version alone need not succeed. -/
theorem update_cas_counterexample :
    badUpdGame.id = rowA.id ∧ badUpdGame.version = rowA.version ∧
    rowA ∈ dbOne.rows ∧
    GameModel.Update dbOne badUpdGame = (dbOne, badUpdGame, some Err.storeError) ∧
    ¬ ((GameModel.Update dbOne badUpdGame).2.2 = none) := by
  decide

/-- C1 amended: for a stored game, Update presenting a stale version fails
EditConflict leaving the entire store unchanged, while Update presenting the
currently stored version together with a payload satisfying the schema check
constraints succeeds, writes the row, and returns a version distinct from the
stored one. -/
theorem update_cas_spec (db : DB) (game stored : Game) (hWF : db.WF)
    (hmem : stored ∈ db.rows) (hid : game.id = stored.id) :
    (game.version ≠ stored.version →
      GameModel.Update db game = (db, game, some Err.editConflict)) ∧
    (game.version = stored.version → checkConstraintsOk db game = true →
      (GameModel.Update db game).2.2 = none ∧
      (GameModel.Update db game).2.1.version ≠ stored.version ∧
      { stored with title := game.title, year := game.year, genres := game.genres,
                    version := (GameModel.Update db game).2.1.version } ∈
          (GameModel.Update db game).1.rows) := by
  constructor
  · intro hv
    apply update_eq_conflict
    rw [List.find?_eq_none]
    intro a ha hcontra
    have hparts := (Bool.and_eq_true _ _).mp hcontra
    have haid : a.id = game.id := eq_of_beq hparts.1
    have haver : a.version = game.version := eq_of_beq hparts.2
    have hasto : a = stored :=
      eq_of_mem_same_id a stored (haid.trans hid) db.rows hWF.1 ha hmem
    rw [hasto] at haver
    exact hv haver.symm
  · intro hv hck
    have hfind : db.rows.find?
        (fun g => g.id == game.id && g.version == game.version) = some stored := by
      apply find_unique_by_id _ _ _ _ _ hWF.1 hmem
      · intro h hh
        exact (eq_of_beq ((Bool.and_eq_true _ _).mp hh).1).trans hid
      · rw [Bool.and_eq_true]
        exact ⟨beq_iff_eq.mpr hid.symm, beq_iff_eq.mpr hv.symm⟩
    rw [update_eq_matched db game stored hfind, updateMatched_ok db game hck]
    refine ⟨rfl, ?_, ?_⟩
    · show db.nextVersion ≠ stored.version
      have := (hWF.2.1 stored hmem).2.2
      omega
    · have hcond : (stored.id == game.id && stored.version == game.version) = true := by
        rw [Bool.and_eq_true]
        exact ⟨beq_iff_eq.mpr hid.symm, beq_iff_eq.mpr hv.symm⟩
      have hfn := List.mem_map_of_mem (fun g =>
        if g.id == game.id && g.version == game.version then
          { g with title := game.title, year := game.year,
                   genres := game.genres, version := db.nextVersion }
        else g) hmem
      simpa [hcond] using hfn

/-- C1 witness: a stale update on the sample store conflicts and changes
nothing; a current update with a constraint satisfying payload succeeds with
a fresh version. -/
theorem update_cas_spec_witness :
    GameModel.Update dbOne staleGame = (dbOne, staleGame, some Err.editConflict) ∧
    (GameModel.Update dbOne currGame).2.2 = none ∧
    (GameModel.Update dbOne currGame).2.1.version ≠ rowA.version := by
  have h1 := update_cas_spec dbOne staleGame rowA (by decide) (by decide) (by decide)
  have h2 := update_cas_spec dbOne currGame rowA (by decide) (by decide) (by decide)
  exact ⟨h1.1 (by decide), (h2.2 (by decide) (by decide)).1,
    (h2.2 (by decide) (by decide)).2.1⟩

/-- C10: whenever Update reports an error, the edit conflict and the
constraint violation store error alike, the caller struct comes back fully
unchanged, version included; on success every field except version comes back
unchanged. -/
theorem update_frame_spec (db : DB) (game : Game) :
    ((GameModel.Update db game).2.2.isSome = true →
      (GameModel.Update db game).2.1 = game) ∧
    ((GameModel.Update db game).2.2 = none →
      ((GameModel.Update db game).2.1.id = game.id ∧
       (GameModel.Update db game).2.1.createdAt = game.createdAt ∧
       (GameModel.Update db game).2.1.title = game.title ∧
       (GameModel.Update db game).2.1.year = game.year ∧
       (GameModel.Update db game).2.1.genres = game.genres)) := by
  cases hfind : db.rows.find?
      (fun g => g.id == game.id && g.version == game.version) with
  | none =>
    rw [update_eq_conflict db game hfind]
    constructor
    · intro _
      rfl
    · intro hcontra
      simp at hcontra
  | some s =>
    rw [update_eq_matched db game s hfind]
    by_cases hck : checkConstraintsOk db game = true
    · rw [updateMatched_ok db game hck]
      constructor
      · intro hcontra
        simp at hcontra
      · intro _
        exact ⟨rfl, rfl, rfl, rfl, rfl⟩
    · rw [updateMatched_err db game hck]
      constructor
      · intro _
        rfl
      · intro hcontra
        simp at hcontra

/-- C10 witness: the sample stale update and the sample constraint violating
update both return the struct unchanged; the sample current update keeps the
title. -/
theorem update_frame_spec_witness :
    (GameModel.Update dbOne staleGame).2.1 = staleGame ∧
    (GameModel.Update dbOne badUpdGame).2.1 = badUpdGame ∧
    (GameModel.Update dbOne currGame).2.1.title = currGame.title := by
  have h1 := update_frame_spec dbOne staleGame
  have h2 := update_frame_spec dbOne badUpdGame
  have h3 := update_frame_spec dbOne currGame
  exact ⟨h1.1 (by decide), h2.1 (by decide), (h3.2 (by decide)).2.2.1⟩

/-- C6: Delete fails NotFound without any store call for every id below one,
fails NotFound when no row has the id, and on an existing id removes the row,
after which Get on that id fails NotFound. -/
theorem delete_spec (db : DB) (id : Int) :
    (id < 1 → GameModel.Delete db id = (db, some Err.recordNotFound, 0)) ∧
    (1 ≤ id → (∀ g ∈ db.rows, g.id ≠ id) →
      GameModel.Delete db id = (db, some Err.recordNotFound, 1)) ∧
    (1 ≤ id → (∃ g ∈ db.rows, g.id = id) →
      ((GameModel.Delete db id).2.1 = none ∧
       GameModel.Get (GameModel.Delete db id).1 id =
         (Except.error Err.recordNotFound, 1))) := by
  refine ⟨?_, ?_, ?_⟩
  · intro h
    unfold GameModel.Delete
    rw [if_pos h]
  · intro h1 hne
    unfold GameModel.Delete
    rw [if_neg (by omega)]
    have hfil : db.rows.filter (fun g => g.id != id) = db.rows := by
      rw [List.filter_eq_self]
      intro a ha
      exact bne_iff_ne.mpr (hne a ha)
    rw [hfil, if_pos (by exact beq_self_eq_true _)]
  · rintro h1 ⟨g, hg, hgid⟩
    have hlt : (db.rows.filter (fun x => x.id != id)).length < db.rows.length := by
      apply List.length_filter_lt_length_iff_exists.mpr
      refine ⟨g, hg, ?_⟩
      rw [hgid]
      simp
    have hdel : GameModel.Delete db id =
        ({ db with rows := db.rows.filter (fun g => g.id != id) }, none, 1) := by
      have hnee : ¬ (((db.rows.filter (fun g => g.id != id)).length ==
          db.rows.length) = true) := by
        rw [beq_iff_eq]
        omega
      unfold GameModel.Delete
      rw [if_neg (by omega), if_neg hnee]
    rw [hdel]
    refine ⟨rfl, ?_⟩
    unfold GameModel.Get
    rw [if_neg (by omega)]
    have hfind : (db.rows.filter (fun g => g.id != id)).find?
        (fun g => g.id == id) = none := by
      rw [List.find?_eq_none]
      intro a ha hcontra
      have hpa := (List.mem_filter.mp ha).2
      rw [eq_of_beq hcontra] at hpa
      simp at hpa
    rw [hfind]

/-- C6 witness: id zero skips the store, a missing id reports NotFound, and
deleting the present id makes a subsequent Get fail NotFound. -/
theorem delete_spec_witness :
    GameModel.Delete dbOne 0 = (dbOne, some Err.recordNotFound, 0) ∧
    GameModel.Delete dbOne 2 = (dbOne, some Err.recordNotFound, 1) ∧
    (GameModel.Delete dbOne 1).2.1 = none ∧
    GameModel.Get (GameModel.Delete dbOne 1).1 1 =
      (Except.error Err.recordNotFound, 1) := by
  have h0 := delete_spec dbOne 0
  have h2 := delete_spec dbOne 2
  have h1 := delete_spec dbOne 1
  refine ⟨h0.1 (by decide), h2.2.1 (by decide) (by decide), ?_, ?_⟩
  · exact (h1.2.2 (by decide) ⟨rowA, by decide, by decide⟩).1
  · exact (h1.2.2 (by decide) ⟨rowA, by decide, by decide⟩).2

/-- C9: a successful Insert returns the caller supplied title, year and
genres unchanged in the struct; only id, created_at and version are
repopulated. -/
theorem insert_frame_spec (db : DB) (game : Game) (db2 : DB) (assigned : Game)
    (h : GameModel.Insert db game = Except.ok (db2, assigned)) :
    assigned.title = game.title ∧ assigned.year = game.year ∧
    assigned.genres = game.genres := by
  unfold GameModel.Insert at h
  by_cases hc : checkConstraintsOk db game = true
  · rw [if_pos hc] at h
    simp only [Except.ok.injEq, Prod.mk.injEq] at h
    obtain ⟨_, hass⟩ := h
    rw [← hass]
    exact ⟨rfl, rfl, rfl⟩
  · rw [if_neg hc] at h
    exact absurd h (by simp)

/-- C9 witness at a concrete successful insertion. -/
theorem insert_frame_spec_witness :
    ∃ db2 assigned, GameModel.Insert dbOne newGameB = Except.ok (db2, assigned) ∧
      (assigned.title = newGameB.title ∧ assigned.year = newGameB.year ∧
       assigned.genres = newGameB.genres) := by
  have h : GameModel.Insert dbOne newGameB =
      Except.ok (insertedDB dbOne newGameB, assignedGame dbOne newGameB) := by
    unfold GameModel.Insert
    rw [if_pos (by decide)]
  exact ⟨_, _, h, insert_frame_spec dbOne newGameB _ _ h⟩

/-- C3: a game passing validation at a year no later than the store clock
inserts successfully; the struct takes the server assigned id, created_at and
version while keeping title, year and genres, and Get on the returned id
yields exactly the returned record. -/
theorem insert_get_spec (db : DB) (game : Game) (validationYear : Int)
    (hWF : db.WF)
    (hvalid : (ValidateGame Validator.new game validationYear).Valid = true)
    (hyear : validationYear ≤ db.currentYear) :
    ∃ db2 assigned,
      GameModel.Insert db game = Except.ok (db2, assigned) ∧
      assigned.id = db.nextId ∧ assigned.createdAt = db.now ∧
      assigned.version = db.nextVersion ∧
      assigned.title = game.title ∧ assigned.year = game.year ∧
      assigned.genres = game.genres ∧
      GameModel.Get db2 assigned.id = (Except.ok assigned, 1) := by
  obtain ⟨ht1, ht2, hy0, hy1, hy2, hgs, hg1, hg5, hu⟩ :=
    (validateGame_valid_iff game validationYear).mp hvalid
  have hck : checkConstraintsOk db game = true := by
    unfold checkConstraintsOk
    simp only [Bool.and_eq_true, Bool.or_eq_true, decide_eq_true_eq, beq_iff_eq]
    exact ⟨⟨⟨hy1, le_trans hy2 hyear⟩, hgs⟩, Or.inr ⟨hg1, hg5⟩⟩
  have hins : GameModel.Insert db game =
      Except.ok (insertedDB db game, assignedGame db game) := by
    unfold GameModel.Insert
    rw [if_pos hck]
  refine ⟨_, _, hins, rfl, rfl, rfl, rfl, rfl, rfl, ?_⟩
  have hid1 : ¬ (db.nextId < 1) := by
    have := hWF.2.2
    omega
  show GameModel.Get (insertedDB db game) db.nextId = _
  unfold GameModel.Get
  rw [if_neg hid1]
  have hfind : (insertedDB db game).rows.find? (fun g => g.id == db.nextId) =
      some (assignedGame db game) := by
    show (db.rows ++ [assignedGame db game]).find? (fun g => g.id == db.nextId) = _
    rw [List.find?_append]
    have hleft : db.rows.find? (fun g => g.id == db.nextId) = none := by
      rw [List.find?_eq_none]
      intro a ha hcontra
      have hlt := (hWF.2.1 a ha).2.1
      have := eq_of_beq hcontra
      omega
    rw [hleft]
    have hright : [assignedGame db game].find? (fun g => g.id == db.nextId) =
        some (assignedGame db game) := by
      apply List.find?_cons_of_pos
      show ((assignedGame db game).id == db.nextId) = true
      exact beq_self_eq_true _
    rw [hright]
    rfl
  rw [hfind]

/-- C3 witness at a concrete store and a concrete valid game. -/
theorem insert_get_spec_witness :
    ∃ db2 assigned,
      GameModel.Insert dbOne newGame = Except.ok (db2, assigned) ∧
      assigned.id = dbOne.nextId ∧ assigned.createdAt = dbOne.now ∧
      assigned.version = dbOne.nextVersion ∧
      assigned.title = newGame.title ∧ assigned.year = newGame.year ∧
      assigned.genres = newGame.genres ∧
      GameModel.Get db2 assigned.id = (Except.ok assigned, 1) :=
  insert_get_spec dbOne newGame 2025 (by decide) (by decide) (by decide)

/-- C8 witness: two failing checks on one field keep the first message. -/
theorem validator_first_failure_wins_witness :
    (runChecks Validator.new
      [⟨false, "f", "one"⟩, ⟨false, "f", "two"⟩]).errors.lookup "f" = some "one" := by
  have h := validator_first_failure_wins
    [⟨false, "f", "one"⟩, ⟨false, "f", "two"⟩] "f"
  rw [h.1]
  decide

/-! Pagination arithmetic and the page partition lemma. -/

theorem ceilDiv_mul_ge (N s : Nat) (hs : 0 < s) : N ≤ ceilDiv N s * s := by
  unfold ceilDiv
  have h1 := Nat.div_add_mod (N + s - 1) s
  have h2 := Nat.mod_lt (N + s - 1) hs
  have h3 := Nat.mul_comm ((N + s - 1) / s) s
  omega

theorem lt_of_lt_ceilDiv (N s p : Nat) (hs : 0 < s) (hp : p < ceilDiv N s) :
    p * s < N := by
  unfold ceilDiv at hp
  have h1 := Nat.div_add_mod (N + s - 1) s
  have h2 := Nat.mod_lt (N + s - 1) hs
  have h3 : p + 1 ≤ (N + s - 1) / s := hp
  have h4 : (p + 1) * s ≤ ((N + s - 1) / s) * s := Nat.mul_le_mul_right s h3
  have h5 := Nat.mul_comm ((N + s - 1) / s) s
  have h6 : (p + 1) * s = p * s + s := Nat.succ_mul p s
  omega

theorem windows_join {α : Type} (size : Nat) :
    ∀ (n : Nat) (l : List α), l.length ≤ n * size →
      (List.range n).flatMap (fun i => (l.drop (i * size)).take size) = l := by
  intro n
  induction n with
  | zero =>
    intro l h
    rw [Nat.zero_mul, Nat.le_zero] at h
    rw [List.length_eq_zero.mp h]
    rfl
  | succ n ih =>
    intro l h
    rw [List.range_succ_eq_map, List.flatMap_cons, List.flatMap_map]
    have hstep : ∀ i : Nat, (l.drop (Nat.succ i * size)).take size =
        ((l.drop size).drop (i * size)).take size := by
      intro i
      rw [List.drop_drop]
      have h8 : Nat.succ i * size = size + i * size := by
        rw [Nat.succ_mul]
        omega
      rw [h8]
    simp only [hstep]
    have hlen : (l.drop size).length ≤ n * size := by
      rw [List.length_drop]
      have h7 : (n + 1) * size = n * size + size := Nat.succ_mul n size
      omega
    rw [ih (l.drop size) hlen]
    simp only [Nat.zero_mul, List.drop_zero]
    exact List.take_append_drop size l

/-- C4: with a safelisted sort field and a positive page size, GetAll with
empty title and genre filters pages a fixed permutation of all rows: the
pages up to the last one join back to the whole sorted row set, every such
call returns its window with the full count and the ceiling divided last page
in its Metadata, and whenever the filters match no rows the call returns an
empty but non nil page with the zero Metadata. -/
theorem getAll_pagination_spec (db : DB) (sortReq : String) (safelist : List String)
    (pageSize : Nat) (hsafe : safelist.contains sortReq = true) (hps : 1 ≤ pageSize) :
    ∃ sorted : List Game,
      List.Perm sorted db.rows ∧
      (List.range (ceilDiv db.rows.length pageSize)).flatMap
          (fun i => (sorted.drop (i * pageSize)).take pageSize) = sorted ∧
      (∀ p : Nat, 1 ≤ p → p ≤ ceilDiv db.rows.length pageSize →
        GameModel.GetAll db "" [] ⟨p, pageSize, sortReq, safelist⟩ =
          some (some ((sorted.drop ((p - 1) * pageSize)).take pageSize),
            ⟨p, pageSize, 1, ceilDiv db.rows.length pageSize, db.rows.length⟩) ∧
        ((sorted.drop ((p - 1) * pageSize)).take pageSize).length =
          min pageSize (db.rows.length - (p - 1) * pageSize)) ∧
      (∀ p : Nat, ∀ title : String, ∀ genres : List String,
        db.rows.filter (fun g => rowMatches title genres g) = [] →
        GameModel.GetAll db title genres ⟨p, pageSize, sortReq, safelist⟩ =
          some (some [], Metadata.zero)) := by
  have hcol : ∀ p : Nat, Filters.sortColumn ⟨p, pageSize, sortReq, safelist⟩ =
      some (if sortReq.startsWith "-" then sortReq.drop 1 else sortReq) := by
    intro p
    unfold Filters.sortColumn
    dsimp only
    rw [if_pos hsafe]
  have hmatched : db.rows.filter (fun g => rowMatches "" [] g) = db.rows := by
    rw [List.filter_eq_self]
    intro a _
    simp [rowMatches]
  have hperm : List.Perm
      (sortGames (if sortReq.startsWith "-" then sortReq.drop 1 else sortReq)
        ((if sortReq.startsWith "-" then "DESC" else "ASC") == "DESC") db.rows)
      db.rows := List.perm_insertionSort _ db.rows
  have hlen : (sortGames (if sortReq.startsWith "-" then sortReq.drop 1 else sortReq)
      ((if sortReq.startsWith "-" then "DESC" else "ASC") == "DESC") db.rows).length =
      db.rows.length := hperm.length_eq
  refine ⟨sortGames (if sortReq.startsWith "-" then sortReq.drop 1 else sortReq)
    ((if sortReq.startsWith "-" then "DESC" else "ASC") == "DESC") db.rows,
    hperm, ?_, ?_, ?_⟩
  · apply windows_join pageSize
    rw [hlen]
    exact ceilDiv_mul_ge db.rows.length pageSize (by omega)
  · intro p hp1 hpL
    have hoff : (p - 1) * pageSize < db.rows.length := by
      apply lt_of_lt_ceilDiv db.rows.length pageSize (p - 1) (by omega)
      omega
    have hG : GameModel.GetAll db "" [] ⟨p, pageSize, sortReq, safelist⟩ =
        some (some (((sortGames
            (if sortReq.startsWith "-" then sortReq.drop 1 else sortReq)
            ((if sortReq.startsWith "-" then "DESC" else "ASC") == "DESC")
            (db.rows.filter (fun g => rowMatches "" [] g))).drop
              ((p - 1) * pageSize)).take pageSize),
          calculateMetadata
            (if (((sortGames
                (if sortReq.startsWith "-" then sortReq.drop 1 else sortReq)
                ((if sortReq.startsWith "-" then "DESC" else "ASC") == "DESC")
                (db.rows.filter (fun g => rowMatches "" [] g))).drop
                  ((p - 1) * pageSize)).take pageSize).isEmpty then 0
             else (db.rows.filter (fun g => rowMatches "" [] g)).length)
            p pageSize) := by
      unfold GameModel.GetAll
      rw [hcol p]
      rfl
    rw [hmatched] at hG
    have hplen : (((sortGames
        (if sortReq.startsWith "-" then sortReq.drop 1 else sortReq)
        ((if sortReq.startsWith "-" then "DESC" else "ASC") == "DESC")
        db.rows).drop ((p - 1) * pageSize)).take pageSize).length =
        min pageSize (db.rows.length - (p - 1) * pageSize) := by
      rw [List.length_take, List.length_drop, hlen]
    have hpne : ¬ ((((sortGames
        (if sortReq.startsWith "-" then sortReq.drop 1 else sortReq)
        ((if sortReq.startsWith "-" then "DESC" else "ASC") == "DESC")
        db.rows).drop ((p - 1) * pageSize)).take pageSize).isEmpty = true) := by
      rw [List.isEmpty_iff]
      intro hnil
      have hlnil := congrArg List.length hnil
      rw [hplen] at hlnil
      simp only [List.length_nil] at hlnil
      omega
    rw [hG]
    refine ⟨?_, hplen⟩
    rw [if_neg hpne]
    have hN0 : ¬ (db.rows.length = 0) := by omega
    unfold calculateMetadata
    rw [if_neg hN0]
  · intro p title genres hfil
    unfold GameModel.GetAll
    rw [hcol p, hfil]
    simp [sortGames, List.insertionSort, calculateMetadata, Metadata.zero]

/-- C4 witness at a three row store, page size two, sorted by id. -/
theorem getAll_pagination_spec_witness :
    ∃ sorted : List Game,
      List.Perm sorted dbThree.rows ∧
      (List.range (ceilDiv dbThree.rows.length 2)).flatMap
          (fun i => (sorted.drop (i * 2)).take 2) = sorted ∧
      (∀ p : Nat, 1 ≤ p → p ≤ ceilDiv dbThree.rows.length 2 →
        GameModel.GetAll dbThree "" [] ⟨p, 2, "id", ["id"]⟩ =
          some (some ((sorted.drop ((p - 1) * 2)).take 2),
            ⟨p, 2, 1, ceilDiv dbThree.rows.length 2, dbThree.rows.length⟩) ∧
        ((sorted.drop ((p - 1) * 2)).take 2).length =
          min 2 (dbThree.rows.length - (p - 1) * 2)) ∧
      (∀ p : Nat, ∀ title : String, ∀ genres : List String,
        dbThree.rows.filter (fun g => rowMatches title genres g) = [] →
        GameModel.GetAll dbThree title genres ⟨p, 2, "id", ["id"]⟩ =
          some (some [], Metadata.zero)) :=
  getAll_pagination_spec dbThree "id" ["id"] 2 (by decide) (by decide)

end GoBack
